import Mathlib

/-!
Verification development for the ClipSync relay server (`src/server.js`,
second — authoritative — variant of the file; the `src/unnamed` parts are
earlier variants of the same program).

The server state and every message branch are shallowly embedded below,
translated line by line from the source.  JavaScript `Map`s are modelled as
functions into `Option`, the per-pair `files` object as a `List FileRecord`
in insertion order (JS objects preserve insertion order and overwrite in
place, which `setFile` mirrors), the `receivedMap` `Set` as a `Finset Int`
(ack frames may carry any integer index), and a WebSocket as a `Nat`
connection id whose `readyState === OPEN` is membership in `openConns`.
Frames actually delivered (target socket present and open — the `safeSend` /
`sendToOther` guards) are appended to the `out` log.  Transport exceptions,
the `retries` bookkeeping field (written but never read back), wall-clock
timers and the heartbeat are not modelled; timer bodies (`staleTimer`) are
modelled as explicit events.  Handlers look sessions up in the registry at
event time.
-/

namespace ClipSync

/-! ## Configuration (defaults from src/server.js, lines 188-194) -/

def CHUNK_SIZE : Nat := 64 * 1024

def MAX_FILE_SIZE : Nat := 5 * 1024 * 1024 * 1024

def MAX_SIMULTANEOUS_FILES : Nat := 5

def CHUNK_RETRY_LIMIT : Nat := 3

def FILE_CLEANUP_TIMEOUT : Nat := 30 * 60 * 1000

def PAIR_CLEANUP_TIMEOUT : Nat := 12 * 60 * 60 * 1000

/-! ## Data model -/

inductive Role
  | pc
  | app
deriving DecidableEq

def other : Role → Role
  | .pc => .app
  | .app => .pc

def roleStr : Role → String
  | .pc => "pc"
  | .app => "app"

inductive FileStatus
  | sending
  | paused
  | completed
deriving DecidableEq

structure FileRecord where
  fileId : String
  name : String
  totalChunks : Nat
  totalSize : Option Int
  receivedChunks : Nat
  receivedMap : Finset Int
  status : FileStatus
  senderType : Role
  createdAt : Nat
  lastActivity : Nat
deriving DecidableEq

structure ClipEntry where
  source : String
  content : String
  timestamp : Nat
deriving DecidableEq

structure Session where
  token : String
  pc : Option Nat
  app : Option Nat
  clipboardHistory : List ClipEntry
  files : List FileRecord
  createdAt : Nat
  lastActivity : Nat
deriving DecidableEq

def Session.slot (s : Session) : Role → Option Nat
  | .pc => s.pc
  | .app => s.app

def Session.setSlot (s : Session) : Role → Option Nat → Session
  | .pc, v => { s with pc := v }
  | .app, v => { s with app := v }

/-- Frames the server writes to a socket (§6 wire format). -/
inductive Frame
  | error (message : String)
  | statusMsg (message : String)
  | clipboard (source content : String)
  | fileMeta (fileId fileName : String) (totalChunks : Nat) (totalSize : Option Int)
  | fileChunk (fileId : String) (chunkIndex : Int) (totalChunks : Option Nat) (dat : String)
  | fileChunkAck (fileId : String) (chunkIndex : Int)
  | fileProgress (fileId : String) (receivedChunks totalChunks : Nat)
  | fileComplete (fileId : String)
  | filePaused (fileId : String) (reason : Option String)
  | fileResumed (fileId : String)
  | fileMissingChunks (fileId : String) (chunks : List Int)
  | peerDisconnected (side : Role) (message : String)
deriving DecidableEq

/-- An element of a `file_missing_chunks` array from the sender: either an
object carrying `chunkIndex` and `data`, or a bare index. -/
inductive MissingItem
  | chunkData (chunkIndex : Int) (dat : String)
  | bareIndex (idx : Int)
deriving DecidableEq

/-- Client → server JSON frames dispatched by `data.type`.  Fields that the
code checks for presence/integerness (`file_meta`) are `Option`s; elsewhere
the handlers use the fields directly. -/
inductive ClientMsg
  | clipboard (content : String)
  | fileMeta (fileId fileName : String) (totalChunks : Option Int) (totalSize : Option Int)
  | fileChunk (fileId : String) (chunkIndex : Int) (dat : String)
  | fileChunkAck (fileId : String) (chunkIndex : Int)
  | fileComplete (fileId : String)
  | pauseFile (fileId : String)
  | resumeFile (fileId : String)
  | requestChunks (fileId : String) (chunks : List Int)
  | fileMissingChunks (fileId : String) (chunks : List MissingItem)
deriving DecidableEq

structure ServerState where
  pairs : String → Option Session
  openConns : Finset Nat
  devNames : Nat → Option String
  out : List (Nat × Frame)

def initState : ServerState :=
  { pairs := fun _ => none, openConns := ∅, devNames := fun _ => none, out := [] }

/-! ## Registry and socket primitives -/

def getPair (st : ServerState) (pid : String) : Option Session :=
  st.pairs pid

def setPair (st : ServerState) (pid : String) (s : Session) : ServerState :=
  { st with pairs := fun q => if q = pid then some s else st.pairs q }

def removePair (st : ServerState) (pid : String) : ServerState :=
  { st with pairs := fun q => if q = pid then none else st.pairs q }

/-- Model of `safeSend` / `sendToOther`: deliver a frame iff the target socket exists
and is open; otherwise drop silently (src/server.js lines 289-298, 385-390). -/
def deliver (st : ServerState) (target : Option Nat) (f : Frame) : ServerState :=
  match target with
  | none => st
  | some c => if c ∈ st.openConns then { st with out := st.out ++ [(c, f)] } else st

/-- Model of `ws.close()`: the socket leaves the OPEN state at once, so no further
frame is delivered to it; its close event is a separate later `Event`. -/
def closeSock (st : ServerState) (target : Option Nat) : ServerState :=
  match target with
  | none => st
  | some c => { st with openConns := st.openConns.erase c }

def sockOpen (st : ServerState) : Option Nat → Bool
  | none => false
  | some c => decide (c ∈ st.openConns)

/-- The `cleanupPair` helper (src/server.js lines 222-229): close both sockets, delete
the pair. -/
def cleanupPair (st : ServerState) (pid : String) : ServerState :=
  match getPair st pid with
  | none => st
  | some p => removePair (closeSock (closeSock st p.pc) p.app) pid

/-! ## File-record helpers -/

def getFile (fs : List FileRecord) (fid : String) : Option FileRecord :=
  fs.find? (fun f => f.fileId = fid)

/-- Assignment `pair.files[fileId] = r`: overwrite in place when the key exists
(JS objects keep insertion order on overwrite), append otherwise. -/
def setFile (fs : List FileRecord) (r : FileRecord) : List FileRecord :=
  if fs.any (fun f => f.fileId = r.fileId) then
    fs.map (fun f => if f.fileId = r.fileId then r else f)
  else fs ++ [r]

/-- Count of records in non-completed status (src/server.js line 404). -/
def activeCount (fs : List FileRecord) : Nat :=
  (fs.filter (fun f => f.status = FileStatus.sending ∨ f.status = FileStatus.paused)).length

/-- The `validateFileBudget` check (src/server.js lines 230-234): effective size is the
declared size when it is a finite number, else `totalChunks * CHUNK_SIZE`. -/
def validateFileBudget (totalChunks : Int) (declaredSize : Option Int) : Bool :=
  let estimated : Int := totalChunks * (CHUNK_SIZE : Int)
  let size : Int := match declaredSize with
    | some s => s
    | none => estimated
  size ≤ (MAX_FILE_SIZE : Int)

/-- The missing-chunk computation of the `resume_file` branch
(src/server.js lines 581-584): indices `0 ≤ i < totalChunks` not in
`receivedMap`, ascending. -/
def missingList (f : FileRecord) : List Int :=
  ((List.range f.totalChunks).filter (fun i => ¬ ((i : Int) ∈ f.receivedMap))).map
    (fun i => (i : Int))

/-! ## Message branches (src/server.js lines 372-640)

Each branch receives the session `pair` already carrying the
`pair.lastActivity = now` update done at the top of the message handler,
with `st` the state in which that update has been written back. -/

/-- The `clipboard` branch (lines 393-399). -/
def clipboardBranch (st : ServerState) (pid : String) (pair : Session) (connId : Nat)
    (role : Role) (content : String) (now : Nat) : ServerState :=
  let dev := (st.devNames connId).getD "Unknown"
  let hist := pair.clipboardHistory ++ [⟨dev, content, now⟩]
  let hist := if hist.length > 50 then hist.drop (hist.length - 50) else hist
  let pair := { pair with clipboardHistory := hist }
  let st := setPair st pid pair
  deliver st (pair.slot (other role)) (.clipboard dev content)

/-- The `file_meta` branch (lines 402-442): count cap, validity, size budget,
then unconditional overwrite of `pair.files[fileId]` and forward to the
other side. -/
def fileMetaBranch (st : ServerState) (pid : String) (pair : Session) (connId : Nat)
    (role : Role) (fid fname : String) (tc ts : Option Int) (now : Nat) : ServerState :=
  if activeCount pair.files ≥ MAX_SIMULTANEOUS_FILES then
    deliver st (some connId)
      (.error ("Too many simultaneous file transfers. Maximum is " ++
        toString MAX_SIMULTANEOUS_FILES))
  else if tc.isNone ∨ tc.getD 0 ≤ 0 ∨ fid = "" ∨ fname = "" then
    deliver st (some connId) (.error "Invalid file meta")
  else if ¬ validateFileBudget (tc.getD 0) ts then
    deliver st (some connId)
      (.error ("File too large. Maximum size is " ++
        toString (MAX_FILE_SIZE / (1024 * 1024)) ++ "MB"))
  else
    let r : FileRecord :=
      { fileId := fid, name := fname, totalChunks := (tc.getD 0).toNat, totalSize := ts,
        receivedChunks := 0, receivedMap := ∅, status := .sending, senderType := role,
        createdAt := now, lastActivity := now }
    let pair := { pair with files := setFile pair.files r }
    let st := setPair st pid pair
    deliver st (pair.slot (other role)) (.fileMeta fid fname r.totalChunks ts)

/-- The `file_chunk` branch (lines 445-497).  The forward itself always succeeds
in the model (the retry/backoff path fires only on a send exception); note
the duplicate check is against `receivedMap`, which only acks populate. -/
def fileChunkBranch (st : ServerState) (pid : String) (pair : Session) (connId : Nat)
    (role : Role) (fid : String) (ci : Int) (dat : String) (now : Nat) : ServerState :=
  match getFile pair.files fid with
  | none => st
  | some f =>
    if f.status = FileStatus.paused then st
    else
      let receiver := pair.slot (other role)
      if sockOpen st receiver = false then
        let f := { f with status := .paused, lastActivity := now }
        let pair := { pair with files := setFile pair.files f }
        let st := setPair st pid pair
        let st := deliver st (some connId) (.filePaused fid (some "Receiver unavailable"))
        deliver st (pair.slot (other role)) (.filePaused fid (some "Receiver unavailable"))
      else if ci ∈ f.receivedMap then st
      else deliver st receiver (.fileChunk fid ci (some f.totalChunks) dat)

/-- The `file_chunk_ack` branch (lines 501-541).  Distinct index: insert and
recount; then ack to the sender slot, progress to the receiver slot, and the
completion check `receivedChunks >= totalChunks` runs on every ack. -/
def fileChunkAckBranch (st : ServerState) (pid : String) (pair : Session) (connId : Nat)
    (role : Role) (fid : String) (ci : Int) (now : Nat) : ServerState :=
  match getFile pair.files fid with
  | none => st
  | some f0 =>
    let f := if ci ∈ f0.receivedMap then f0
      else { f0 with receivedMap := insert ci f0.receivedMap,
                     receivedChunks := (insert ci f0.receivedMap).card,
                     lastActivity := now }
    let pair := { pair with files := setFile pair.files f }
    let st := setPair st pid pair
    let st := deliver st (pair.slot f.senderType) (.fileChunkAck fid ci)
    let st := deliver st (pair.slot (other f.senderType))
      (.fileProgress fid f.receivedChunks f.totalChunks)
    if f.receivedChunks ≥ f.totalChunks then
      let f2 := { f with status := .completed }
      let pair2 := { pair with files := setFile pair.files f2 }
      let st := setPair st pid pair2
      let st := deliver st (pair2.slot (other role)) (.fileComplete fid)
      deliver st (pair2.slot f2.senderType) (.fileComplete fid)
    else st

/-- The `file_complete` branch (lines 544-554): informational only — updates
`lastActivity` and forwards; the status is untouched. -/
def fileCompleteBranch (st : ServerState) (pid : String) (pair : Session) (connId : Nat)
    (role : Role) (fid : String) (now : Nat) : ServerState :=
  match getFile pair.files fid with
  | none => st
  | some f =>
    let f := { f with lastActivity := now }
    let pair := { pair with files := setFile pair.files f }
    let st := setPair st pid pair
    deliver st (pair.slot (other role)) (.fileComplete fid)

/-- The `pause_file` branch (lines 557-568): no precondition on the current
status. -/
def pauseFileBranch (st : ServerState) (pid : String) (pair : Session) (connId : Nat)
    (role : Role) (fid : String) (now : Nat) : ServerState :=
  match getFile pair.files fid with
  | none => st
  | some f =>
    let f := { f with status := .paused, lastActivity := now }
    let pair := { pair with files := setFile pair.files f }
    let st := setPair st pid pair
    let st := deliver st (some connId) (.filePaused fid none)
    deliver st (pair.slot (other role)) (.filePaused fid none)

/-- The `resume_file` branch (lines 570-595): refused on completed records; the
missing-chunk request goes out only when the sender socket is open and the
missing list is non-empty. -/
def resumeFileBranch (st : ServerState) (pid : String) (pair : Session) (connId : Nat)
    (role : Role) (fid : String) (now : Nat) : ServerState :=
  match getFile pair.files fid with
  | none => st
  | some f0 =>
    if f0.status = FileStatus.completed then st
    else
      let f := { f0 with status := .sending, lastActivity := now }
      let pair := { pair with files := setFile pair.files f }
      let st := setPair st pid pair
      let st := deliver st (some connId) (.fileResumed fid)
      let st := deliver st (pair.slot (other role)) (.fileResumed fid)
      let missing := missingList f
      if sockOpen st (pair.slot f.senderType) && !missing.isEmpty then
        deliver st (pair.slot f.senderType) (.fileMissingChunks fid missing)
      else st

/-- The `request_chunks` branch (lines 598-612). -/
def requestChunksBranch (st : ServerState) (pid : String) (pair : Session) (connId : Nat)
    (role : Role) (fid : String) (chunks : List Int) : ServerState :=
  match getFile pair.files fid with
  | none => st
  | some f =>
    if sockOpen st (pair.slot f.senderType) && !chunks.isEmpty then
      deliver st (pair.slot f.senderType) (.fileMissingChunks fid chunks)
    else st

/-- The `file_missing_chunks` branch (lines 615-636): every `{chunkIndex, data}`
item is forwarded to the receiver side with no record, status or duplicate
check (`pair.files[fileId]?.totalChunks` may be absent); bare indices are
ignored. -/
def missingChunksBranch (st : ServerState) (pid : String) (pair : Session) (connId : Nat)
    (role : Role) (fid : String) (items : List MissingItem) : ServerState :=
  items.foldl
    (fun s item =>
      match item with
      | .chunkData ci dat =>
        deliver s (pair.slot (other role))
          (.fileChunk fid ci ((getFile pair.files fid).map (fun f => f.totalChunks)) dat)
      | .bareIndex _ => s) st

/-- Dispatch of one JSON frame (lines 372-640): look the pair up, stamp
`lastActivity`, branch on `data.type`. -/
def handleMessage (st0 : ServerState) (connId : Nat) (role : Role) (pid : String)
    (m : ClientMsg) (now : Nat) : ServerState :=
  match getPair st0 pid with
  | none => st0
  | some pair0 =>
    let pair := { pair0 with lastActivity := now }
    let st := setPair st0 pid pair
    match m with
    | .clipboard content => clipboardBranch st pid pair connId role content now
    | .fileMeta fid fname tc ts => fileMetaBranch st pid pair connId role fid fname tc ts now
    | .fileChunk fid ci dat => fileChunkBranch st pid pair connId role fid ci dat now
    | .fileChunkAck fid ci => fileChunkAckBranch st pid pair connId role fid ci now
    | .fileComplete fid => fileCompleteBranch st pid pair connId role fid now
    | .pauseFile fid => pauseFileBranch st pid pair connId role fid now
    | .resumeFile fid => resumeFileBranch st pid pair connId role fid now
    | .requestChunks fid chunks => requestChunksBranch st pid pair connId role fid chunks
    | .fileMissingChunks fid items => missingChunksBranch st pid pair connId role fid items

/-! ## Connection lifecycle -/

/-- The `GET /pair` handler (src/server.js lines 242-263): insert an empty session.  No
timer of any kind is armed here. -/
def mintPair (st : ServerState) (pid tok : String) (now : Nat) : ServerState :=
  { st with pairs := fun q =>
      if q = pid then
        some { token := tok, pc := none, app := none, clipboardHistory := [], files := [],
               createdAt := now, lastActivity := now }
      else st.pairs q }

/-- The `wss` connection handler (src/server.js lines 301-366): token check,
replace-on-rebind (`pair[clientType].close()`), slot binding, registration
status, history replay, in-flight file sync, both-connected notification. -/
def handleConnect (st0 : ServerState) (connId : Nat) (role : Role)
    (pid tok dev : String) (now : Nat) : ServerState :=
  let st := { st0 with
    openConns := insert connId st0.openConns,
    devNames := fun c =>
      if c = connId then some (if dev = "" then "Unknown" else dev) else st0.devNames c }
  match getPair st pid with
  | none => closeSock (deliver st (some connId) (.error "Invalid pair or token")) (some connId)
  | some pair =>
    if pair.token ≠ tok then
      closeSock (deliver st (some connId) (.error "Invalid pair or token")) (some connId)
    else
      let st := match pair.slot role with
        | some old => if old ≠ connId then closeSock st (some old) else st
        | none => st
      let pair := pair.setSlot role (some connId)
      let pair := { pair with lastActivity := now }
      let st := setPair st pid pair
      let st := deliver st (some connId) (.statusMsg (roleStr role ++ " registered."))
      let st := pair.clipboardHistory.foldl
        (fun s item => deliver s (some connId) (.clipboard item.source item.content)) st
      let st := pair.files.foldl
        (fun s f =>
          if f.status ≠ FileStatus.completed then
            if role ≠ f.senderType then
              deliver s (some connId) (.fileMeta f.fileId f.name f.totalChunks f.totalSize)
            else
              deliver s (some connId) (.fileProgress f.fileId f.receivedChunks f.totalChunks)
          else s) st
      if pair.pc.isSome && pair.app.isSome then
        deliver (deliver st pair.pc (.statusMsg "Mobile connected")) pair.app
          (.statusMsg "PC connected")
      else st

/-- The socket close handler (src/server.js lines 643-667).  `clientType` and
`pairId` are the values the closure captured when this socket connected.
Note the slot is nulled unconditionally — with no check that it still holds
this socket. -/
def handleClose (st0 : ServerState) (connId : Nat) (role : Role) (pid : String) :
    ServerState :=
  let st := closeSock st0 (some connId)
  match getPair st pid with
  | none => st
  | some p =>
    let otherWs := p.slot (other role)
    let st := deliver st otherWs (.statusMsg (roleStr role ++ " disconnected"))
    let st := deliver st otherWs (.peerDisconnected role (roleStr role ++ " disconnected"))
    let sendingFiles := p.files.filter
      (fun f => f.senderType = role ∧ f.status = FileStatus.sending)
    let st := sendingFiles.foldl
      (fun s f => deliver s otherWs (.filePaused f.fileId (some "Sender disconnected"))) st
    let files := p.files.map
      (fun f => if f.senderType = role ∧ f.status = FileStatus.sending then
          { f with status := FileStatus.paused }
        else f)
    let p := { p with files := files }
    let p := p.setSlot role none
    let st := setPair st pid p
    if p.pc = none ∧ p.app = none then cleanupPair st pid else st

/-- One tick of the per-pair `staleTimer` (src/server.js lines 670-687):
drop stale non-completed files, then reap the pair only when both slots are
empty and it has been idle longer than `PAIR_CLEANUP_TIMEOUT`. -/
def reapTick (st : ServerState) (pid : String) (now : Nat) : ServerState :=
  match getPair st pid with
  | none => st
  | some p =>
    let files := p.files.filter
      (fun f => ¬ (now - f.lastActivity > FILE_CLEANUP_TIMEOUT ∧
                   f.status ≠ FileStatus.completed))
    let p2 := { p with files := files }
    let st := setPair st pid p2
    if p2.pc = none ∧ p2.app = none ∧ now - p.lastActivity > PAIR_CLEANUP_TIMEOUT then
      cleanupPair st pid
    else st

/-! ## The event machine -/

inductive Event
  | mint (pid tok : String) (now : Nat)
  | connect (connId : Nat) (role : Role) (pid tok dev : String) (now : Nat)
  | message (connId : Nat) (role : Role) (pid : String) (m : ClientMsg) (now : Nat)
  | closeEvt (connId : Nat) (role : Role) (pid : String)
  | reap (pid : String) (now : Nat)

def step (st : ServerState) : Event → ServerState
  | .mint pid tok now => mintPair st pid tok now
  | .connect connId role pid tok dev now => handleConnect st connId role pid tok dev now
  | .message connId role pid m now => handleMessage st connId role pid m now
  | .closeEvt connId role pid => handleClose st connId role pid
  | .reap pid now => reapTick st pid now

def runTrace (st : ServerState) (es : List Event) : ServerState :=
  es.foldl step st

/-! ## HTTP → WS upgrade (src/server.js lines 707-734) -/

/-- Model of `pathname.replace(/\/+$/, "") || ""` — strip trailing slashes (the empty
string stays empty). -/
def stripTrailingSlashes (p : String) : String :=
  String.mk ((p.toList.reverse.dropWhile (fun c => c = '/')).reverse)

/-- A parsed upgrade request: path plus the `pairId`, `token`, `type`,
`deviceName` query parameters (absent parameters are `none`; JS treats the
empty string as missing too, via falsiness). -/
structure UpgradeReq where
  path : String
  pairId : Option String
  token : Option String
  reqType : Option String
  deviceName : Option String
deriving DecidableEq

/-- Either the upgrade completes — emitting the `connection` event with this
role and metadata — or the socket is destroyed.  The handler never touches
the registry. -/
inductive UpgradeOutcome
  | completed (role : Role) (pairId tok dev : String)
  | destroyed
deriving DecidableEq

def handleUpgrade (st : ServerState) (r : UpgradeReq) : UpgradeOutcome :=
  if stripTrailingSlashes r.path = "/connect" then
    match r.pairId, r.token, r.reqType with
    | some pid, some tok, some ty =>
      if pid = "" ∨ tok = "" ∨ ty = "" then .destroyed
      else
        match getPair st pid with
        | none => .destroyed
        | some p =>
          if p.token ≠ tok then .destroyed
          else
            let dev := match r.deviceName with
              | some d => if d = "" then "Unknown" else d
              | none => "Unknown"
            if ty = "pc" then .completed .pc pid tok dev
            else if ty = "app" then .completed .app pid tok dev
            else .destroyed
    | _, _, _ => .destroyed
  else .destroyed

/-! ## Frame classifiers and invariants used in the statements -/

def isChunkFrame : Frame → Bool
  | .fileChunk _ _ _ _ => true
  | _ => false

def isErrorFrame : Frame → Bool
  | .error _ => true
  | _ => false

def isMissingFrame : Frame → Bool
  | .fileMissingChunks _ _ => true
  | _ => false

/-- The derived-counter half of the spec's FileRecord invariant:
`receivedChunks == |receivedMap|`. -/
def RecOK (f : FileRecord) : Prop :=
  f.receivedChunks = f.receivedMap.card

/-- Lift of `RecOK` to every file of every registered session. -/
def StateOK (st : ServerState) : Prop :=
  ∀ pid s, st.pairs pid = some s → ∀ f ∈ s.files, RecOK f

/-! ## Concrete traces and states used by the per-claim evaluations.

In every trace: pair "p" with token "t"; connection 1 is the `pc` side,
connection 2 the `app` side; `pc` sends `file_meta` for file "F", so `pc`
is the sender side and `app` the receiver side. -/

/-- Sender uploads a 1-chunk file; the receiver acks chunk 0 twice. -/
def c1Trace : List Event :=
  [ .mint "p" "t" 0,
    .connect 1 .pc "p" "t" "D1" 0,
    .connect 2 .app "p" "t" "D2" 0,
    .message 1 .pc "p" (.fileMeta "F" "x.bin" (some 1) none) 0,
    .message 2 .app "p" (.fileChunkAck "F" 0) 0,
    .message 2 .app "p" (.fileChunkAck "F" 0) 0 ]

/-- Sender transmits chunk 0 of a 2-chunk file twice before any ack. -/
def c2Trace : List Event :=
  [ .mint "p" "t" 0,
    .connect 1 .pc "p" "t" "D1" 0,
    .connect 2 .app "p" "t" "D2" 0,
    .message 1 .pc "p" (.fileMeta "F" "x.bin" (some 2) none) 0,
    .message 1 .pc "p" (.fileChunk "F" 0 "AA") 0,
    .message 1 .pc "p" (.fileChunk "F" 0 "AA") 0 ]

/-- Receiver acks out-of-range chunk indices 5 and 6 of a 1-chunk file. -/
def c3Trace : List Event :=
  [ .mint "p" "t" 0,
    .connect 1 .pc "p" "t" "D1" 0,
    .connect 2 .app "p" "t" "D2" 0,
    .message 1 .pc "p" (.fileMeta "F" "x.bin" (some 1) none) 0,
    .message 2 .app "p" (.fileChunkAck "F" 5) 0,
    .message 2 .app "p" (.fileChunkAck "F" 6) 0 ]

/-- A 1-chunk file completes, then the receiver sends `pause_file`. -/
def c4Trace : List Event :=
  [ .mint "p" "t" 0,
    .connect 1 .pc "p" "t" "D1" 0,
    .connect 2 .app "p" "t" "D2" 0,
    .message 1 .pc "p" (.fileMeta "F" "x.bin" (some 1) none) 0,
    .message 2 .app "p" (.fileChunkAck "F" 0) 0,
    .message 2 .app "p" (.pauseFile "F") 0 ]

/-- Connection 1 binds the `pc` slot, connection 2 replaces it, then the
close event of the displaced connection 1 is processed. -/
def c5Trace : List Event :=
  [ .mint "p" "t" 0,
    .connect 1 .pc "p" "t" "D1" 0,
    .connect 2 .pc "p" "t" "D1b" 0,
    .closeEvt 1 .pc "p" ]

/-- A session is minted at t = 0 and never connected to; a reaper tick runs
at t = 2 min + 60 s = 180000 ms. -/
def c6Trace : List Event :=
  [ .mint "p" "t" 0, .reap "p" 180000 ]

/-- A 1-chunk file completes, is paused, and then resumed: the missing set
is empty at the resume. -/
def c7Trace : List Event :=
  [ .mint "p" "t" 0,
    .connect 1 .pc "p" "t" "D1" 0,
    .connect 2 .app "p" "t" "D2" 0,
    .message 1 .pc "p" (.fileMeta "F" "x.bin" (some 1) none) 0,
    .message 2 .app "p" (.fileChunkAck "F" 0) 0,
    .message 2 .app "p" (.pauseFile "F") 0,
    .message 2 .app "p" (.resumeFile "F") 0 ]

/-- A `file_meta` with `totalChunks = 81920` and no `totalSize`
(totalChunks × CHUNK_SIZE = 5 × 2^30 exactly). -/
def c8Trace : List Event :=
  [ .mint "p" "t" 0,
    .connect 1 .pc "p" "t" "D1" 0,
    .message 1 .pc "p" (.fileMeta "F" "x.bin" (some 81920) none) 0 ]

/-- A partially-acknowledged 2-chunk transfer from `pc` (chunk 0
acknowledged), paused. -/
def wFile : FileRecord :=
  { fileId := "F", name := "x.bin", totalChunks := 2, totalSize := none,
    receivedChunks := 1, receivedMap := {0}, status := .paused,
    senderType := .pc, createdAt := 0, lastActivity := 0 }

/-- A session with both sides connected and `wFile` in flight. -/
def wSession : Session :=
  { token := "t", pc := some 1, app := some 2, clipboardHistory := [],
    files := [wFile], createdAt := 0, lastActivity := 0 }

def mkWState (s : Session) : ServerState :=
  { pairs := fun q => if q = "p" then some s else none,
    openConns := {1, 2},
    devNames := fun c => if c = 1 then some "D1" else if c = 2 then some "D2" else none,
    out := [] }

def c2WState : ServerState := mkWState wSession

def c3WState : ServerState := mkWState wSession

def c4WState : ServerState := mkWState wSession

def c6WState : ServerState := mkWState wSession

def c7WState : ServerState := mkWState wSession

def c8WState : ServerState := mkWState wSession

def c10WState : ServerState := mkWState wSession

/-- Registry for the credential-law witness: one live session `a1b2c3`. -/
def c9WState : ServerState :=
  { pairs := fun q =>
      if q = "a1b2c3" then
        some { token := "0123456789abcdef0123456789abcdef", pc := none, app := none,
               clipboardHistory := [], files := [], createdAt := 0, lastActivity := 0 }
      else none,
    openConns := ∅, devNames := fun _ => none, out := [] }

def c9WReq : UpgradeReq :=
  { path := "/connect", pairId := some "a1b2c3",
    token := some "0123456789abcdef0123456789abcdef",
    reqType := some "pc", deviceName := none }

/-! ## Basic lemmas about the state primitives -/

theorem pairs_deliver (st : ServerState) (t : Option Nat) (fr : Frame) :
    (deliver st t fr).pairs = st.pairs := by
  cases t with
  | none => rfl
  | some c =>
    simp only [deliver]
    split <;> rfl

theorem openConns_deliver (st : ServerState) (t : Option Nat) (fr : Frame) :
    (deliver st t fr).openConns = st.openConns := by
  cases t with
  | none => rfl
  | some c =>
    simp only [deliver]
    split <;> rfl

theorem pairs_closeSock (st : ServerState) (t : Option Nat) :
    (closeSock st t).pairs = st.pairs := by
  cases t <;> rfl

theorem out_setPair (st : ServerState) (pid : String) (s : Session) :
    (setPair st pid s).out = st.out := rfl

theorem openConns_setPair (st : ServerState) (pid : String) (s : Session) :
    (setPair st pid s).openConns = st.openConns := rfl

theorem getPair_setPair (st : ServerState) (pid : String) (s : Session) :
    getPair (setPair st pid s) pid = some s := by
  simp [getPair, setPair]

theorem getPair_deliver (st : ServerState) (t : Option Nat) (fr : Frame) (pid : String) :
    getPair (deliver st t fr) pid = getPair st pid := by
  simp [getPair, pairs_deliver]

theorem sockOpen_iff {st : ServerState} {t : Option Nat} :
    sockOpen st t = true ↔ ∃ c, t = some c ∧ c ∈ st.openConns := by
  cases t <;> simp [sockOpen]

theorem slot_update_files (p : Session) (fs : List FileRecord) (la : Nat) (r : Role) :
    Session.slot { p with files := fs, lastActivity := la } r = p.slot r := by
  cases r <;> rfl

theorem mem_out_deliver {st : ServerState} {t : Option Nat} {fr : Frame} {x : Nat × Frame} :
    x ∈ (deliver st t fr).out ↔
      x ∈ st.out ∨ ∃ c, t = some c ∧ c ∈ st.openConns ∧ x = (c, fr) := by
  cases t with
  | none => simp [deliver]
  | some c =>
    simp only [deliver]
    by_cases hc : c ∈ st.openConns
    · simp [hc, List.mem_append]
    · simp [hc]

theorem filter_out_deliver {st : ServerState} {t : Option Nat} {fr : Frame}
    (q : Nat × Frame → Bool) (hq : ∀ c, q (c, fr) = false) :
    ((deliver st t fr).out.filter q) = st.out.filter q := by
  cases t with
  | none => rfl
  | some c =>
    simp only [deliver]
    split
    · simp [List.filter_append, hq]
    · rfl

/-! ## Lemmas about file lookup and overwrite -/

theorem getFile_fileId {fs : List FileRecord} {fid : String} {f : FileRecord}
    (h : getFile fs fid = some f) : f.fileId = fid := by
  have := List.find?_some h
  simpa using this

theorem getFile_mem {fs : List FileRecord} {fid : String} {f : FileRecord}
    (h : getFile fs fid = some f) : f ∈ fs :=
  List.mem_of_find?_eq_some h

theorem find?_map_overwrite {r : FileRecord} {fid : String} (h : r.fileId = fid) :
    ∀ fs : List FileRecord, fs.any (fun f => f.fileId = r.fileId) = true →
      (fs.map (fun f => if f.fileId = r.fileId then r else f)).find?
        (fun f => f.fileId = fid) = some r
  | [], h2 => by simp at h2
  | a :: as, h2 => by
    simp only [List.map_cons]
    by_cases ha : a.fileId = r.fileId
    · simp [ha, h]
    · have ha' : ¬ a.fileId = fid := fun hh => ha (hh.trans h.symm)
      rw [if_neg ha, List.find?_cons_of_neg _ (by simpa using ha')]
      have h2' : as.any (fun f => f.fileId = r.fileId) = true := by
        simpa [List.any_cons, ha] using h2
      exact find?_map_overwrite h as h2'

theorem find?_append_new {r : FileRecord} {fid : String} (h : r.fileId = fid) :
    ∀ fs : List FileRecord, fs.any (fun f => f.fileId = r.fileId) = false →
      (fs ++ [r]).find? (fun f => f.fileId = fid) = some r
  | [], _ => by simp [List.find?, h]
  | a :: as, h2 => by
    rw [List.any_cons, Bool.or_eq_false_iff] at h2
    have ha : ¬ a.fileId = r.fileId := by simpa using h2.1
    have ha' : ¬ a.fileId = fid := fun hh => ha (hh.trans h.symm)
    rw [List.cons_append, List.find?_cons_of_neg _ (by simpa using ha')]
    exact find?_append_new h as h2.2

theorem getFile_setFile_self {fs : List FileRecord} {r : FileRecord} {fid : String}
    (h : r.fileId = fid) : getFile (setFile fs r) fid = some r := by
  unfold setFile getFile
  by_cases hany : fs.any (fun f => f.fileId = r.fileId) = true
  · rw [if_pos hany]
    exact find?_map_overwrite h fs hany
  · rw [if_neg hany]
    exact find?_append_new h fs (by simpa using hany)

theorem mem_setFile {fs : List FileRecord} {r g : FileRecord} (h : g ∈ setFile fs r) :
    g = r ∨ g ∈ fs := by
  unfold setFile at h
  by_cases hany : fs.any (fun f => f.fileId = r.fileId) = true
  · rw [if_pos hany] at h
    obtain ⟨a, ha, hg⟩ := List.mem_map.mp h
    by_cases haf : a.fileId = r.fileId
    · rw [if_pos haf] at hg
      exact Or.inl hg.symm
    · rw [if_neg haf] at hg
      exact Or.inr (hg ▸ ha)
  · rw [if_neg hany] at h
    rcases List.mem_append.mp h with h | h
    · exact Or.inr h
    · exact Or.inl (by simpa using h)

/-! ## Preservation of the derived-counter invariant by the primitives -/

theorem StateOK_of_pairs_eq {st st' : ServerState} (h : st'.pairs = st.pairs)
    (hok : StateOK st) : StateOK st' := by
  intro pid s hs
  rw [h] at hs
  exact hok pid s hs

theorem StateOK_deliver {st : ServerState} {t : Option Nat} {fr : Frame}
    (hok : StateOK st) : StateOK (deliver st t fr) :=
  StateOK_of_pairs_eq (pairs_deliver st t fr) hok

theorem StateOK_closeSock {st : ServerState} {t : Option Nat}
    (hok : StateOK st) : StateOK (closeSock st t) :=
  StateOK_of_pairs_eq (pairs_closeSock st t) hok

theorem StateOK_setPair {st : ServerState} {pid : String} {s : Session}
    (hok : StateOK st) (hs : ∀ f ∈ s.files, RecOK f) : StateOK (setPair st pid s) := by
  intro q s' hq
  simp only [setPair] at hq
  split at hq
  · rw [Option.some.injEq] at hq
    exact hq ▸ hs
  · exact hok q s' hq

theorem StateOK_removePair {st : ServerState} {pid : String}
    (hok : StateOK st) : StateOK (removePair st pid) := by
  intro q s' hq
  simp only [removePair] at hq
  split at hq
  · exact absurd hq (by simp)
  · exact hok q s' hq

theorem StateOK_cleanupPair {st : ServerState} {pid : String}
    (hok : StateOK st) : StateOK (cleanupPair st pid) := by
  unfold cleanupPair
  split
  · exact hok
  · exact StateOK_removePair (StateOK_closeSock (StateOK_closeSock hok))

theorem StateOK_foldl {α : Type} {g : ServerState → α → ServerState}
    (hg : ∀ s a, StateOK s → StateOK (g s a)) :
    ∀ (l : List α) (st : ServerState), StateOK st → StateOK (l.foldl g st)
  | [], _, h => h
  | a :: l, st, h => StateOK_foldl hg l (g st a) (hg st a h)

theorem setFile_RecOK {fs : List FileRecord} {r : FileRecord}
    (hfs : ∀ f ∈ fs, RecOK f) (hr : RecOK r) : ∀ f ∈ setFile fs r, RecOK f := by
  intro f hf
  rcases mem_setFile hf with rfl | hf
  · exact hr
  · exact hfs f hf

/-! ## Preservation of the derived-counter invariant by every branch -/

theorem StateOK_clipboardBranch {st : ServerState} {pid : String} {pair : Session}
    {connId : Nat} {role : Role} {content : String} {now : Nat}
    (hok : StateOK st) (hfs : ∀ f ∈ pair.files, RecOK f) :
    StateOK (clipboardBranch st pid pair connId role content now) := by
  simp only [clipboardBranch]
  exact StateOK_deliver (StateOK_setPair hok hfs)

theorem StateOK_fileMetaBranch {st : ServerState} {pid : String} {pair : Session}
    {connId : Nat} {role : Role} {fid fname : String} {tc ts : Option Int} {now : Nat}
    (hok : StateOK st) (hfs : ∀ f ∈ pair.files, RecOK f) :
    StateOK (fileMetaBranch st pid pair connId role fid fname tc ts now) := by
  simp only [fileMetaBranch]
  split
  · exact StateOK_deliver hok
  split
  · exact StateOK_deliver hok
  split
  · exact StateOK_deliver hok
  exact StateOK_deliver (StateOK_setPair hok (setFile_RecOK hfs (by simp [RecOK])))

theorem StateOK_fileChunkBranch {st : ServerState} {pid : String} {pair : Session}
    {connId : Nat} {role : Role} {fid : String} {ci : Int} {dat : String} {now : Nat}
    (hok : StateOK st) (hfs : ∀ f ∈ pair.files, RecOK f) :
    StateOK (fileChunkBranch st pid pair connId role fid ci dat now) := by
  simp only [fileChunkBranch]
  split
  · exact hok
  rename_i f hf
  split
  · exact hok
  split
  · refine StateOK_deliver (StateOK_deliver (StateOK_setPair hok ?_))
    refine setFile_RecOK hfs ?_
    exact hfs f (getFile_mem hf)
  split
  · exact hok
  · exact StateOK_deliver hok

theorem StateOK_fileChunkAckBranch {st : ServerState} {pid : String} {pair : Session}
    {connId : Nat} {role : Role} {fid : String} {ci : Int} {now : Nat}
    (hok : StateOK st) (hfs : ∀ f ∈ pair.files, RecOK f) :
    StateOK (fileChunkAckBranch st pid pair connId role fid ci now) := by
  simp only [fileChunkAckBranch]
  split
  · exact hok
  rename_i f0 hf0
  have h0 : RecOK f0 := hfs f0 (getFile_mem hf0)
  split
  · split
    · refine StateOK_deliver (StateOK_deliver (StateOK_setPair
        (StateOK_deliver (StateOK_deliver (StateOK_setPair hok ?_))) ?_))
      · exact setFile_RecOK hfs h0
      · exact setFile_RecOK (setFile_RecOK hfs h0) h0
    · refine StateOK_deliver (StateOK_deliver (StateOK_setPair hok ?_))
      exact setFile_RecOK hfs h0
  · split
    · refine StateOK_deliver (StateOK_deliver (StateOK_setPair
        (StateOK_deliver (StateOK_deliver (StateOK_setPair hok ?_))) ?_))
      · exact setFile_RecOK hfs rfl
      · exact setFile_RecOK (setFile_RecOK hfs rfl) rfl
    · refine StateOK_deliver (StateOK_deliver (StateOK_setPair hok ?_))
      exact setFile_RecOK hfs rfl

theorem StateOK_fileCompleteBranch {st : ServerState} {pid : String} {pair : Session}
    {connId : Nat} {role : Role} {fid : String} {now : Nat}
    (hok : StateOK st) (hfs : ∀ f ∈ pair.files, RecOK f) :
    StateOK (fileCompleteBranch st pid pair connId role fid now) := by
  simp only [fileCompleteBranch]
  split
  · exact hok
  rename_i f hf
  exact StateOK_deliver (StateOK_setPair hok
    (setFile_RecOK hfs (hfs f (getFile_mem hf))))

theorem StateOK_pauseFileBranch {st : ServerState} {pid : String} {pair : Session}
    {connId : Nat} {role : Role} {fid : String} {now : Nat}
    (hok : StateOK st) (hfs : ∀ f ∈ pair.files, RecOK f) :
    StateOK (pauseFileBranch st pid pair connId role fid now) := by
  simp only [pauseFileBranch]
  split
  · exact hok
  rename_i f hf
  exact StateOK_deliver (StateOK_deliver (StateOK_setPair hok
    (setFile_RecOK hfs (hfs f (getFile_mem hf)))))

theorem StateOK_resumeFileBranch {st : ServerState} {pid : String} {pair : Session}
    {connId : Nat} {role : Role} {fid : String} {now : Nat}
    (hok : StateOK st) (hfs : ∀ f ∈ pair.files, RecOK f) :
    StateOK (resumeFileBranch st pid pair connId role fid now) := by
  simp only [resumeFileBranch]
  split
  · exact hok
  rename_i f0 hf0
  split
  · exact hok
  split
  · refine StateOK_deliver (StateOK_deliver (StateOK_deliver (StateOK_setPair hok ?_)))
    exact setFile_RecOK hfs (hfs f0 (getFile_mem hf0))
  · refine StateOK_deliver (StateOK_deliver (StateOK_setPair hok ?_))
    exact setFile_RecOK hfs (hfs f0 (getFile_mem hf0))

theorem StateOK_requestChunksBranch {st : ServerState} {pid : String} {pair : Session}
    {connId : Nat} {role : Role} {fid : String} {chunks : List Int}
    (hok : StateOK st) :
    StateOK (requestChunksBranch st pid pair connId role fid chunks) := by
  simp only [requestChunksBranch]
  split
  · exact hok
  split
  · exact StateOK_deliver hok
  · exact hok

theorem StateOK_missingChunksBranch {st : ServerState} {pid : String} {pair : Session}
    {connId : Nat} {role : Role} {fid : String} {items : List MissingItem}
    (hok : StateOK st) :
    StateOK (missingChunksBranch st pid pair connId role fid items) := by
  simp only [missingChunksBranch]
  refine StateOK_foldl (fun s a h => ?_) items st hok
  match a with
  | .chunkData ci dat => exact StateOK_deliver h
  | .bareIndex _ => exact h

theorem StateOK_handleMessage {st : ServerState} {connId : Nat} {role : Role}
    {pid : String} {m : ClientMsg} {now : Nat} (hok : StateOK st) :
    StateOK (handleMessage st connId role pid m now) := by
  simp only [handleMessage]
  split
  · exact hok
  rename_i pair0 hp0
  have hfs : ∀ f ∈ pair0.files, RecOK f := hok pid pair0 hp0
  have hok' : StateOK (setPair st pid { pair0 with lastActivity := now }) :=
    StateOK_setPair hok hfs
  match m with
  | .clipboard content => exact StateOK_clipboardBranch hok' hfs
  | .fileMeta fid fname tc ts => exact StateOK_fileMetaBranch hok' hfs
  | .fileChunk fid ci dat => exact StateOK_fileChunkBranch hok' hfs
  | .fileChunkAck fid ci => exact StateOK_fileChunkAckBranch hok' hfs
  | .fileComplete fid => exact StateOK_fileCompleteBranch hok' hfs
  | .pauseFile fid => exact StateOK_pauseFileBranch hok' hfs
  | .resumeFile fid => exact StateOK_resumeFileBranch hok' hfs
  | .requestChunks fid chunks => exact StateOK_requestChunksBranch hok'
  | .fileMissingChunks fid items => exact StateOK_missingChunksBranch hok'

theorem StateOK_mintPair {st : ServerState} {pid tok : String} {now : Nat}
    (hok : StateOK st) : StateOK (mintPair st pid tok now) := by
  intro q s hq
  simp only [mintPair] at hq
  split at hq
  · rw [Option.some.injEq] at hq
    subst hq
    intro f hf
    simp at hf
  · exact hok q s hq

theorem StateOK_handleConnect {st : ServerState} {connId : Nat} {role : Role}
    {pid tok dev : String} {now : Nat} (hok : StateOK st) :
    StateOK (handleConnect st connId role pid tok dev now) := by
  simp only [handleConnect]
  split
  · exact StateOK_closeSock (StateOK_deliver (StateOK_of_pairs_eq rfl hok))
  rename_i pair hp
  split
  · exact StateOK_closeSock (StateOK_deliver (StateOK_of_pairs_eq rfl hok))
  have hfs : ∀ f ∈ pair.files, RecOK f := hok pid pair hp
  have hfe : (Session.setSlot pair role (some connId)).files = pair.files := by
    cases role <;> rfl
  split
  · refine StateOK_deliver (StateOK_deliver (StateOK_foldl (fun s f h => ?_) _ _
      (StateOK_foldl (fun s it h => StateOK_deliver h) _ _
        (StateOK_deliver (StateOK_setPair ?_ ?_)))))
    · dsimp only
      split
      · split
        · exact StateOK_deliver h
        · exact StateOK_deliver h
      · exact h
    · split
      · split
        · exact StateOK_closeSock (StateOK_of_pairs_eq rfl hok)
        · exact StateOK_of_pairs_eq rfl hok
      · exact StateOK_of_pairs_eq rfl hok
    · intro f hf
      dsimp only at hf
      rw [hfe] at hf
      exact hfs f hf
  · refine StateOK_foldl (fun s f h => ?_) _ _
      (StateOK_foldl (fun s it h => StateOK_deliver h) _ _
        (StateOK_deliver (StateOK_setPair ?_ ?_)))
    · dsimp only
      split
      · split
        · exact StateOK_deliver h
        · exact StateOK_deliver h
      · exact h
    · split
      · split
        · exact StateOK_closeSock (StateOK_of_pairs_eq rfl hok)
        · exact StateOK_of_pairs_eq rfl hok
      · exact StateOK_of_pairs_eq rfl hok
    · intro f hf
      dsimp only at hf
      rw [hfe] at hf
      exact hfs f hf

theorem StateOK_handleClose {st : ServerState} {connId : Nat} {role : Role}
    {pid : String} (hok : StateOK st) :
    StateOK (handleClose st connId role pid) := by
  simp only [handleClose]
  split
  · exact StateOK_closeSock hok
  rename_i p hp
  have hfs : ∀ f ∈ p.files, RecOK f := (StateOK_closeSock hok) pid p hp
  have hmm : ∀ f ∈ p.files.map
      (fun f => if f.senderType = role ∧ f.status = FileStatus.sending then
          { f with status := FileStatus.paused } else f), RecOK f := by
    intro f hf
    obtain ⟨a, ha, rfl⟩ := List.mem_map.mp hf
    split
    · exact hfs a ha
    · exact hfs a ha
  cases role
  all_goals
    split
  all_goals
    first
    | refine StateOK_cleanupPair (StateOK_setPair (StateOK_foldl
        (fun s f h => StateOK_deliver h) _ _
        (StateOK_deliver (StateOK_deliver (StateOK_closeSock hok)))) hmm)
    | refine StateOK_setPair (StateOK_foldl
        (fun s f h => StateOK_deliver h) _ _
        (StateOK_deliver (StateOK_deliver (StateOK_closeSock hok)))) hmm

theorem StateOK_reapTick {st : ServerState} {pid : String} {now : Nat}
    (hok : StateOK st) : StateOK (reapTick st pid now) := by
  simp only [reapTick]
  split
  · exact hok
  rename_i p hp
  have hfs : ∀ f ∈ p.files, RecOK f := hok pid p hp
  split
  · refine StateOK_cleanupPair (StateOK_setPair hok ?_)
    exact fun f hf => hfs f (List.mem_of_mem_filter hf)
  · refine StateOK_setPair hok ?_
    exact fun f hf => hfs f (List.mem_of_mem_filter hf)

theorem StateOK_step {st : ServerState} (e : Event) (hok : StateOK st) :
    StateOK (step st e) := by
  cases e with
  | mint pid tok now => exact StateOK_mintPair hok
  | connect connId role pid tok dev now => exact StateOK_handleConnect hok
  | message connId role pid m now => exact StateOK_handleMessage hok
  | closeEvt connId role pid => exact StateOK_handleClose hok
  | reap pid now => exact StateOK_reapTick hok

theorem runTrace_StateOK : ∀ (es : List Event) (st : ServerState),
    StateOK st → StateOK (runTrace st es)
  | [], _, h => h
  | e :: es, st, h => runTrace_StateOK es (step st e) (StateOK_step e h)

/-! ## The claims -/

/-- C1: the completion law fails in the code.  On `c1Trace` — a 1-chunk file
from `pc` (socket 1) to `app` (socket 2) whose final `file_chunk_ack` is
followed by one duplicate ack — the server delivers `file_complete` for "F"
four times to the sender socket 1 and never to the receiver socket 2:
`sendToOther` is computed relative to the *acking* client, so both
completion sends target the sender, and the completion block has no guard
against re-running on later acks.  The claim asserts exactly one delivery to
each side. -/
theorem C1_completion_broadcast_eval :
    ((runTrace initState c1Trace).out.filter
      (fun x => x = ((1 : Nat), Frame.fileComplete "F"))).length = 4 ∧
    ((runTrace initState c1Trace).out.filter
      (fun x => x = ((2 : Nat), Frame.fileComplete "F"))).length = 0 := by
  decide

/-- C2 counterexample: on `c2Trace` the sender retransmits chunk 0 before
any ack, and the server forwards the same `(fileId, chunkIndex)` to the
receiver twice — `receivedMap` is populated only by acks, so the duplicate
check does not fire. -/
theorem C2_duplicate_forward_cex :
    ((runTrace initState c2Trace).out.filter
      (fun x => x = ((2 : Nat), Frame.fileChunk "F" 0 (some 2) "AA"))).length = 2 := by
  decide

/-- C2 (amended): duplicate suppression holds exactly for already
*acknowledged* chunks: if `chunkIndex ∈ receivedMap`, processing a
`file_chunk` frame emits no `file_chunk` frame at all. -/
theorem C2_no_forward_when_acked (st : ServerState) (connId : Nat) (role : Role)
    (pid fid : String) (ci : Int) (dat : String) (now : Nat) (p : Session) (f : FileRecord)
    (h1 : getPair st pid = some p) (h2 : getFile p.files fid = some f)
    (h3 : ci ∈ f.receivedMap) :
    ((step st (.message connId role pid (.fileChunk fid ci dat) now)).out.filter
      (fun x => isChunkFrame x.2)) = st.out.filter (fun x => isChunkFrame x.2) := by
  simp only [step, handleMessage, h1, fileChunkBranch, h2]
  split
  · rfl
  · split
    · rw [filter_out_deliver _ (fun c => rfl), filter_out_deliver _ (fun c => rfl)]
      rfl
    all_goals
      first
      | rfl
      | (rename_i hdup; exact absurd h3 hdup)

/-- C3 counterexample: on `c3Trace` the receiver acks the out-of-range
indices 5 and 6 of a 1-chunk file; the record ends with
`receivedChunks = 2 > totalChunks = 1`, refuting the bound half of the
invariant (the status is even `completed`). -/
theorem C3_bound_violated_cex :
    ((getPair (runTrace initState c3Trace) "p").bind (fun s => getFile s.files "F")).map
      (fun f => (f.receivedChunks, f.totalChunks,
        decide (f.receivedChunks ≤ f.totalChunks))) = some (2, 1, false) := by
  decide

/-- C3 (amended): the derived-counter half of the invariant does hold of
every reachable state: after any event trace from the initial state, every
`FileRecord` of every session satisfies `receivedChunks = receivedMap.card`.
The bound `receivedChunks ≤ totalChunks` is not invariant (see the
counterexample). -/
theorem C3_receivedChunks_eq_card (es : List Event) : StateOK (runTrace initState es) :=
  runTrace_StateOK es initState (fun _ _ h => Option.noConfusion h)

/-- C4 counterexample: on `c4Trace` a completed 1-chunk file is then paused
by a `pause_file` frame: the final record has `receivedChunks = totalChunks`
yet status `paused` — the claimed iff fails, and `completed` is not
terminal. -/
theorem C4_pause_after_complete_cex :
    ((getPair (runTrace initState c4Trace) "p").bind (fun s => getFile s.files "F")).map
      (fun f => (f.receivedChunks, f.totalChunks, f.status)) =
    some (1, 1, FileStatus.paused) := by
  decide

/-- C5: replace-on-rebind is broken by the close handler.  On `c5Trace`, a
second `pc` connection (socket 2) replaces socket 1; when socket 1's close
event is later processed, the handler nulls the `pc` slot without checking
that it still owns it and, both slots now empty, deletes the whole session —
while the replacing socket 2 is still open.  The claim asserts the slot
still references connection 2 afterwards. -/
theorem C5_replace_close_eval :
    getPair (runTrace initState c5Trace) "p" = none ∧
    2 ∈ (runTrace initState c5Trace).openConns := by
  decide

/-- C6 counterexample: on `c6Trace` a session is minted at t = 0, never
connected to, and a reaper tick runs at t = 180000 ms (2 min mint TTL plus a
60 s tick): the session is still in the registry and no frame whatsoever has
been sent — there is no mint-TTL timer and no `{status: "expired"}`
notification anywhere in the code. -/
theorem C6_mint_ttl_cex :
    (getPair (runTrace initState c6Trace) "p").isSome = true ∧
    (runTrace initState c6Trace).out = [] := by
  decide

/-- C6 (amended): no mint TTL exists; the only pair-level reaping is the
per-connection `staleTimer`, which removes a session only when both slots
are empty and it has been idle longer than `PAIR_CLEANUP_TIMEOUT` (12 h).
Any tick within that period — in particular one at 2 minutes after minting —
leaves the session registered. -/
theorem C6_reap_keeps_fresh_session (st : ServerState) (pid : String) (now : Nat)
    (p : Session) (h1 : getPair st pid = some p)
    (h2 : now - p.lastActivity ≤ PAIR_CLEANUP_TIMEOUT) :
    (getPair (step st (.reap pid now)) pid).isSome = true := by
  simp only [step, reapTick, h1]
  rw [if_neg (fun hc => absurd hc.2.2 (not_lt.mpr h2))]
  rw [getPair_setPair]
  rfl

/-- C6 witness: the amended reaping law applied to the concrete
mint-then-tick trace. -/
theorem C6_reap_keeps_fresh_session_witness :
    (getPair (step (step initState (.mint "p" "t" 0)) (.reap "p" 180000)) "p").isSome
      = true :=
  C6_reap_keeps_fresh_session (step initState (.mint "p" "t" 0)) "p" 180000
    { token := "t", pc := none, app := none, clipboardHistory := [], files := [],
      createdAt := 0, lastActivity := 0 }
    (by decide) (by decide)

/-- C2 witness: with chunk 0 of `wFile` already acknowledged, a retransmitted
`file_chunk` for index 0 produces no `file_chunk` frame. -/
theorem C2_no_forward_when_acked_witness :
    ((step c2WState (.message 1 .pc "p" (.fileChunk "F" 0 "BB") 9)).out.filter
      (fun x => isChunkFrame x.2)) = c2WState.out.filter (fun x => isChunkFrame x.2) :=
  C2_no_forward_when_acked c2WState 1 .pc "p" "F" 0 "BB" 9 wSession wFile
    (by decide) (by decide) (by decide)

/-- C4 (amended): completion is driven only by acks, but `completed` is not
terminal: `pause_file` on any existing record — whatever its status, in
particular `completed` — unconditionally sets status `paused`, leaving the
progress fields unchanged, while a sender's `file_complete` frame never
changes the status (it only refreshes `lastActivity`). -/
theorem C4_pause_and_complete_frames (st : ServerState) (connId : Nat) (role : Role)
    (pid fid : String) (now : Nat) (p : Session) (f : FileRecord)
    (h1 : getPair st pid = some p) (h2 : getFile p.files fid = some f) :
    ((getPair (step st (.message connId role pid (.pauseFile fid) now)) pid).bind
      (fun s => getFile s.files fid)) =
        some { f with status := FileStatus.paused, lastActivity := now } ∧
    ((getPair (step st (.message connId role pid (.fileComplete fid) now)) pid).bind
      (fun s => getFile s.files fid)) = some { f with lastActivity := now } := by
  have hid : f.fileId = fid := getFile_fileId h2
  constructor
  · simp only [step, handleMessage, h1, pauseFileBranch, h2]
    rw [getPair_deliver, getPair_deliver, getPair_setPair, Option.some_bind]
    exact getFile_setFile_self hid
  · simp only [step, handleMessage, h1, fileCompleteBranch, h2]
    rw [getPair_deliver, getPair_setPair, Option.some_bind]
    exact getFile_setFile_self hid

/-- C4 witness: the two frame effects evaluated on the concrete warm state
(`wFile` is paused there, so the pause branch is exercised as a plain
overwrite and the `file_complete` branch as a pure `lastActivity` touch). -/
theorem C4_pause_and_complete_frames_witness :
    ((getPair (step c4WState (.message 2 .app "p" (.pauseFile "F") 9)) "p").bind
      (fun s => getFile s.files "F")) =
        some { wFile with status := FileStatus.paused, lastActivity := 9 } ∧
    ((getPair (step c4WState (.message 2 .app "p" (.fileComplete "F") 9)) "p").bind
      (fun s => getFile s.files "F")) = some { wFile with lastActivity := 9 } :=
  C4_pause_and_complete_frames c4WState 2 .app "p" "F" 9 wSession wFile
    (by decide) (by decide)

/-- C7 counterexample: on `c7Trace` a completed-then-paused file is resumed
(the `file_resumed` frame is delivered to the receiver socket 2, so the
resume did happen), the missing set is empty, and no `file_missing_chunks`
frame is ever sent — the claim requires one with an empty `chunks` array. -/
theorem C7_empty_resume_cex :
    ((runTrace initState c7Trace).out.filter (fun x => isMissingFrame x.2)) = [] ∧
    ((2 : Nat), Frame.fileResumed "F") ∈ (runTrace initState c7Trace).out := by
  decide

/-- C7 (amended): after a `resume_file` on a non-completed record, a
`file_missing_chunks` with exactly `{0..totalChunks-1} \\ receivedMap` is
delivered to the sender slot if and only if that set is non-empty and the
sender socket is open; when the missing set is empty (or the sender is
gone), no `file_missing_chunks` frame is sent at all. -/
theorem C7_resume_missing_chunks (st : ServerState) (connId : Nat) (role : Role)
    (pid fid : String) (now : Nat) (p : Session) (f : FileRecord)
    (c : Nat) (chunks : List Int)
    (h0 : st.out = [])
    (h1 : getPair st pid = some p) (h2 : getFile p.files fid = some f)
    (h3 : f.status ≠ FileStatus.completed) :
    ((c, Frame.fileMissingChunks fid chunks) ∈
        (step st (.message connId role pid (.resumeFile fid) now)).out) ↔
      (p.slot f.senderType = some c ∧ c ∈ st.openConns ∧
        missingList f ≠ [] ∧ chunks = missingList f) := by
  simp only [step, handleMessage, h1, resumeFileBranch, h2]
  rw [if_neg h3]
  simp only [slot_update_files]
  have hmiss : missingList ({ f with status := FileStatus.sending, lastActivity := now } :
      FileRecord) = missingList f := rfl
  rw [hmiss]
  split
  · rename_i hcond
    rw [Bool.and_eq_true, sockOpen_iff] at hcond
    obtain ⟨⟨c2, hslot, hc2⟩, hne⟩ := hcond
    have hne2 : missingList f ≠ [] := by simpa using hne
    simp only [mem_out_deliver, openConns_deliver, openConns_setPair, out_setPair, h0,
      List.not_mem_nil, false_or, Prod.mk.injEq] at *
    constructor
    · rintro ((⟨c1, hcon, hmem, hcc, hfr⟩ | ⟨c1, hsl, hmem, hcc, hfr⟩) |
        ⟨c1, hs1, ho1, hcc, hch⟩)
      · exact absurd hfr (by simp)
      · exact absurd hfr (by simp)
      · subst hcc
        refine ⟨hs1, ho1, hne2, ?_⟩
        simpa using hch
    · rintro ⟨hs, ho, hnee, rfl⟩
      exact Or.inr ⟨c, hs, ho, rfl, by simp⟩
  · rename_i hcond
    simp only [mem_out_deliver, openConns_deliver, openConns_setPair, out_setPair, h0,
      List.not_mem_nil, false_or, Prod.mk.injEq] at *
    constructor
    · rintro (⟨c1, hcon, hmem, hcc, hfr⟩ | ⟨c1, hsl, hmem, hcc, hfr⟩)
      · exact absurd hfr (by simp)
      · exact absurd hfr (by simp)
    · rintro ⟨hs, ho, hnee, rfl⟩
      refine absurd ?_ hcond
      rw [Bool.and_eq_true, sockOpen_iff]
      refine ⟨⟨c, hs, ?_⟩, by simpa using hnee⟩
      rw [openConns_deliver, openConns_deliver, openConns_setPair, openConns_setPair]
      exact ho


/-- C7 witness: resuming the paused `wFile` (chunk 0 acked out of 2) from a
warm state delivers `file_missing_chunks "F" [1]` to the sender socket 1. -/
theorem C7_resume_missing_chunks_witness :
    (((1 : Nat), Frame.fileMissingChunks "F" [1]) ∈
        (step c7WState (.message 2 .app "p" (.resumeFile "F") 9)).out) ↔
      (wSession.slot wFile.senderType = some 1 ∧ 1 ∈ c7WState.openConns ∧
        missingList wFile ≠ [] ∧ [1] = missingList wFile) :=
  C7_resume_missing_chunks c7WState 2 .app "p" "F" 9 wSession wFile 1 [1]
    rfl (by decide) (by decide) (by decide)

/-- C8 counterexample: a `file_meta` with `totalChunks = 81920` and no
`totalSize` is *accepted*: `81920 × 65536 = 5 × 2^30` is exactly
`MAX_FILE_SIZE`, not one chunk over, so the budget check `size <= MAX`
passes — a record is created and no error frame is sent, where the claim
demands rejection with the 5120MB error and no record. -/
theorem C8_capacity_accepted_cex :
    ((getPair (runTrace initState c8Trace) "p").bind (fun s => getFile s.files "F")).map
      (fun f => f.totalChunks) = some 81920 ∧
    ((runTrace initState c8Trace).out.filter (fun x => isErrorFrame x.2)) = [] := by
  decide

/-- C8 (amended): the general budget law.  Under passing count and validity
checks, the `file_meta` is rejected with the error frame
`File too large. Maximum size is 5120MB` exactly when
`validateFileBudget` fails — i.e. when the effective size (`totalSize` when
given as a finite number, else `totalChunks × CHUNK_SIZE`) strictly exceeds
`MAX_FILE_SIZE`; on rejection no record is created, on acceptance the
record is. (`totalChunks = 81920` with no `totalSize` sits exactly at the
boundary and is accepted; 81921 is rejected.) -/
theorem C8_size_budget (st : ServerState) (connId : Nat) (role : Role)
    (pid fid fname : String) (n : Int) (ts : Option Int) (now : Nat) (p : Session)
    (h0 : st.out = [])
    (h1 : getPair st pid = some p)
    (hc : connId ∈ st.openConns)
    (h3 : activeCount p.files < MAX_SIMULTANEOUS_FILES)
    (h4 : 0 < n) (h5 : fid ≠ "") (h6 : fname ≠ "") :
    (((connId, Frame.error "File too large. Maximum size is 5120MB") ∈
        (step st (.message connId role pid (.fileMeta fid fname (some n) ts) now)).out) ↔
      validateFileBudget n ts = false) ∧
    (validateFileBudget n ts = true →
      ((getPair (step st (.message connId role pid (.fileMeta fid fname (some n) ts) now))
          pid).bind (fun s => getFile s.files fid)) =
        some { fileId := fid, name := fname, totalChunks := n.toNat, totalSize := ts,
               receivedChunks := 0, receivedMap := ∅, status := .sending,
               senderType := role, createdAt := now, lastActivity := now }) ∧
    (validateFileBudget n ts = false →
      ((getPair (step st (.message connId role pid (.fileMeta fid fname (some n) ts) now))
          pid).map (fun s => s.files)) = some p.files) := by
  have hmsg : ("File too large. Maximum size is " ++
      toString (MAX_FILE_SIZE / (1024 * 1024)) ++ "MB") =
      "File too large. Maximum size is 5120MB" := by decide
  simp only [step, handleMessage, h1, fileMetaBranch]
  rw [if_neg (not_le.mpr h3)]
  rw [if_neg (show ¬ ((some n : Option Int).isNone = true ∨ (some n : Option Int).getD 0 ≤ 0 ∨
      fid = "" ∨ fname = "") from by
    rintro (h | h | h | h)
    · simp at h
    · rw [Option.getD_some] at h
      exact absurd h (not_le.mpr h4)
    · exact h5 h
    · exact h6 h)]
  cases hb : validateFileBudget n ts with
  | true =>
    rw [if_neg (by simp [Option.getD_some, hb])]
    refine ⟨?_, fun _ => ?_, fun hf => Bool.noConfusion hf⟩
    · simp only [mem_out_deliver, out_setPair, h0, List.not_mem_nil, false_or, Prod.mk.injEq]
      constructor
      · rintro ⟨c1, hsl, hmem, hcc, hfr⟩
        exact absurd hfr (by simp)
      · intro hf
        exact Bool.noConfusion hf
    · rw [getPair_deliver, getPair_setPair, Option.some_bind]
      exact getFile_setFile_self rfl
  | false =>
    rw [if_pos (by simp [Option.getD_some, hb])]
    refine ⟨?_, fun hf => Bool.noConfusion hf, fun _ => ?_⟩
    · rw [hmsg]
      simp only [mem_out_deliver, out_setPair, h0, List.not_mem_nil, false_or,
        Prod.mk.injEq, openConns_setPair]
      constructor
      · intro _
        trivial
      · intro _
        exact ⟨connId, rfl, hc, rfl, trivial⟩
    · rw [getPair_deliver, getPair_setPair]
      rfl


/-- C8 witness: `totalChunks = 81921`, no `totalSize`: the budget is
exceeded by one chunk, so the error frame is delivered to the offending
socket and the files map is unchanged. -/
theorem C8_size_budget_witness :
    ((((1 : Nat), Frame.error "File too large. Maximum size is 5120MB") ∈
        (step c8WState (.message 1 .pc "p" (.fileMeta "G" "y.bin" (some 81921) none) 9)).out) ↔
      validateFileBudget 81921 none = false) ∧
    (validateFileBudget 81921 none = true →
      ((getPair (step c8WState (.message 1 .pc "p" (.fileMeta "G" "y.bin" (some 81921) none) 9))
          "p").bind (fun s => getFile s.files "G")) =
        some { fileId := "G", name := "y.bin", totalChunks := (81921 : Int).toNat,
               totalSize := none, receivedChunks := 0, receivedMap := ∅,
               status := .sending, senderType := .pc, createdAt := 9, lastActivity := 9 }) ∧
    (validateFileBudget 81921 none = false →
      ((getPair (step c8WState (.message 1 .pc "p" (.fileMeta "G" "y.bin" (some 81921) none) 9))
          "p").map (fun s => s.files)) = some wSession.files) :=
  C8_size_budget c8WState 1 .pc "p" "G" "y.bin" 81921 none 9 wSession
    rfl (by decide) (by decide) (by decide) (by decide) (by decide) (by decide)

/-- C9: the credential law holds.  For a registry whose sessions were minted
by the server (non-empty pairIds and tokens — the two well-formedness
hypotheses), an upgrade request completes if and only if its normalized path
is `/connect`, all three credentials are present, the `pairId` names a live
session whose token equals the presented one, and the role is `pc` or `app`;
in every other case the handler returns `destroyed`.  `handleUpgrade` is a
pure function of the state, so no upgrade attempt mutates the registry. -/
theorem C9_credential_law (st : ServerState) (r : UpgradeReq)
    (hW1 : ∀ pid s, st.pairs pid = some s → s.token ≠ "")
    (hW2 : st.pairs "" = none) :
    (∃ role pid tok dev, handleUpgrade st r = .completed role pid tok dev) ↔
      (stripTrailingSlashes r.path = "/connect" ∧
       ∃ pid tok ty s, r.pairId = some pid ∧ r.token = some tok ∧ r.reqType = some ty ∧
         st.pairs pid = some s ∧ s.token = tok ∧ (ty = "pc" ∨ ty = "app")) := by
  unfold handleUpgrade
  by_cases hpath : stripTrailingSlashes r.path = "/connect"
  case neg =>
    rw [if_neg hpath]
    constructor
    · rintro ⟨role, pid, tok, dev, hcom⟩
      cases hcom
    · rintro ⟨hp, -⟩
      exact absurd hp hpath
  rw [if_pos hpath]
  rcases hpid : r.pairId with _ | pid
  · simp only [hpid]
    constructor
    · rintro ⟨role, pid, tok, dev, hcom⟩
      cases hcom
    · rintro ⟨-, pid, tok, ty, s, hpid2, -⟩
      cases hpid2
  rcases htok : r.token with _ | tok
  · simp only [hpid, htok]
    constructor
    · rintro ⟨role, pid2, tok, dev, hcom⟩
      cases hcom
    · rintro ⟨-, pid2, tok, ty, s, -, htok2, -⟩
      cases htok2
  rcases hty : r.reqType with _ | ty
  · simp only [hpid, htok, hty]
    constructor
    · rintro ⟨role, pid2, tok2, dev, hcom⟩
      cases hcom
    · rintro ⟨-, pid2, tok2, ty, s, -, -, hty2, -⟩
      cases hty2
  simp only [hpid, htok, hty]
  by_cases hempty : (pid = "" ∨ tok = "" ∨ ty = "")
  · rw [if_pos hempty]
    constructor
    · rintro ⟨role, pid2, tok2, dev, hcom⟩
      cases hcom
    · rintro ⟨-, pid2, tok2, ty2, s, hpid2, htok2, hty2, hs, htk, hrole⟩
      cases hpid2
      cases htok2
      cases hty2
      rcases hempty with he | he | he
      · rw [he] at hs
        rw [hW2] at hs
        cases hs
      · rw [he] at htk
        exact absurd htk (hW1 pid s hs)
      · rw [he] at hrole
        rcases hrole with h | h
        · exact absurd h (by decide)
        · exact absurd h (by decide)
  rw [if_neg hempty]
  cases hgp : getPair st pid with
  | none =>
    simp only [getPair] at hgp
    constructor
    · rintro ⟨role, pid2, tok2, dev, hcom⟩
      cases hcom
    · rintro ⟨-, pid2, tok2, ty2, s, hpid2, htok2, hty2, hs, -⟩
      cases hpid2
      rw [hgp] at hs
      cases hs
  | some s =>
    have hgp2 : st.pairs pid = some s := hgp
    dsimp only
    by_cases htk : s.token = tok
    · rw [if_neg (show ¬ (s.token ≠ tok) from fun hne => hne htk)]
      by_cases hty1 : ty = "pc"
      · rw [if_pos hty1]
        constructor
        · intro _
          exact ⟨hpath, pid, tok, ty, s, rfl, rfl, rfl, hgp2, htk, Or.inl hty1⟩
        · intro _
          exact ⟨.pc, pid, tok, _, rfl⟩
      · rw [if_neg hty1]
        by_cases hty2 : ty = "app"
        · rw [if_pos hty2]
          constructor
          · intro _
            exact ⟨hpath, pid, tok, ty, s, rfl, rfl, rfl, hgp2, htk, Or.inr hty2⟩
          · intro _
            exact ⟨.app, pid, tok, _, rfl⟩
        · rw [if_neg hty2]
          constructor
          · rintro ⟨role, pid2, tok2, dev, hcom⟩
            cases hcom
          · rintro ⟨-, pid2, tok2, ty3, s2, hpid2, htok2, hty3, hs, htk2, hrole⟩
            cases hty3
            rcases hrole with h | h
            · exact absurd h hty1
            · exact absurd h hty2
    · rw [if_pos (show s.token ≠ tok from htk)]
      constructor
      · rintro ⟨role, pid2, tok2, dev, hcom⟩
        cases hcom
      · rintro ⟨-, pid2, tok2, ty2, s2, hpid2, htok2, hty2, hs, htk2, -⟩
        cases hpid2
        cases htok2
        rw [hgp2] at hs
        rw [Option.some.injEq] at hs
        subst hs
        exact absurd htk2 htk


/-- C9 witness: the law evaluated on a one-session registry, for a
well-formed `pc` request. -/
theorem C9_credential_law_witness :
    (∃ role pid tok dev, handleUpgrade c9WState c9WReq = .completed role pid tok dev) ↔
      (stripTrailingSlashes c9WReq.path = "/connect" ∧
       ∃ pid tok ty s, c9WReq.pairId = some pid ∧ c9WReq.token = some tok ∧
         c9WReq.reqType = some ty ∧ c9WState.pairs pid = some s ∧ s.token = tok ∧
         (ty = "pc" ∨ ty = "app")) :=
  C9_credential_law c9WState c9WReq
    (by
      intro pid s h
      simp only [c9WState] at h
      split at h
      · rw [Option.some.injEq] at h
        subst h
        decide
      · cases h)
    (by decide)

/-- C10: a `file_meta` whose `fileId` already names a record is not
rejected: provided the count, validity and size checks pass, the record is
silently overwritten with fresh progress (`receivedChunks = 0`,
`receivedMap = ∅`, status `sending`, `senderType` of the sending side) and
no error frame is emitted (the only frame sent is the forwarded meta). -/
theorem C10_meta_overwrite (st : ServerState) (connId : Nat) (role : Role)
    (pid fid fname : String) (n : Int) (ts : Option Int) (now : Nat) (p : Session)
    (fOld : FileRecord)
    (h0 : st.out = [])
    (h1 : getPair st pid = some p)
    (h2 : getFile p.files fid = some fOld)
    (h3 : activeCount p.files < MAX_SIMULTANEOUS_FILES)
    (h4 : 0 < n) (h5 : fid ≠ "") (h6 : fname ≠ "")
    (h7 : validateFileBudget n ts = true) :
    ((getPair (step st (.message connId role pid (.fileMeta fid fname (some n) ts) now))
        pid).bind (fun s => getFile s.files fid)) =
      some { fileId := fid, name := fname, totalChunks := n.toNat, totalSize := ts,
             receivedChunks := 0, receivedMap := ∅, status := .sending,
             senderType := role, createdAt := now, lastActivity := now } ∧
    (∀ c m, ((c, Frame.error m) ∉
      (step st (.message connId role pid (.fileMeta fid fname (some n) ts) now)).out)) := by
  simp only [step, handleMessage, h1, fileMetaBranch]
  rw [if_neg (not_le.mpr h3)]
  rw [if_neg (show ¬ ((some n : Option Int).isNone = true ∨
      (some n : Option Int).getD 0 ≤ 0 ∨ fid = "" ∨ fname = "") from by
    rintro (h | h | h | h)
    · simp at h
    · rw [Option.getD_some] at h
      exact absurd h (not_le.mpr h4)
    · exact h5 h
    · exact h6 h)]
  rw [if_neg (by simp [Option.getD_some, h7])]
  constructor
  · rw [getPair_deliver, getPair_setPair, Option.some_bind]
    exact getFile_setFile_self rfl
  · intro c m hmem
    simp only [mem_out_deliver, out_setPair, h0, List.not_mem_nil, false_or,
      Prod.mk.injEq] at hmem
    obtain ⟨c1, hsl, hmm, hcc, hfr⟩ := hmem
    exact absurd hfr (by simp)

/-- C10 witness: re-sending `file_meta` for the in-flight "F" (1 chunk
acknowledged) resets its progress to zero without any error frame. -/
theorem C10_meta_overwrite_witness :
    ((getPair (step c10WState (.message 1 .pc "p" (.fileMeta "F" "z.bin" (some 3) none) 9))
        "p").bind (fun s => getFile s.files "F")) =
      some { fileId := "F", name := "z.bin", totalChunks := (3 : Int).toNat,
             totalSize := none, receivedChunks := 0, receivedMap := ∅,
             status := .sending, senderType := .pc, createdAt := 9, lastActivity := 9 } ∧
    (∀ c m, ((c, Frame.error m) ∉
      (step c10WState (.message 1 .pc "p" (.fileMeta "F" "z.bin" (some 3) none) 9)).out)) :=
  C10_meta_overwrite c10WState 1 .pc "p" "F" "z.bin" 3 none 9 wSession wFile
    rfl (by decide) (by decide) (by decide) (by decide) (by decide) (by decide) (by decide)

end ClipSync
